import Mathlib

/-!
Per-frame update pipeline of the platformer (`src/hell.c`).

Shallow embedding of the player update functions and of the body of the game
loop in `main`, in two readings of the C type `int`.

* The functions named as in the source (`movePlayer`, `checkCollision`, ...)
  compute over `Int`.  Signed overflow is undefined behaviour in C, so this
  reading is the program on every run in which no `int` operation overflows.
* The functions in `Wrap` (`Wrap.movePlayer`, `Wrap.checkCollision`, ...) are
  the same statements with every `int` result reduced to 32 bits, two's
  complement (`wrap32`): the program as a 32-bit build computes it, also where
  a sum leaves the range of `int`.

The only non-integer operation of the pipeline is `velY += GRAVITY` with
`GRAVITY = 1.0f`: it is modelled through the binary32 rounding of integers
(`f32OfInt`).
-/

namespace Hell

/-! ## Constants (`#define`s of `hell.c`) -/

def SCREEN_WIDTH : Int := 1200
def SCREEN_HEIGHT : Int := 1000
def GROUND_HEIGHT : Int := 160
def PLAYER_WIDTH : Int := 32
def PLAYER_HEIGHT : Int := 28
def PLAYER_SCALE : Int := 4
def PLAYER_SPEED : Int := 5
def JUMP_STRENGTH : Int := 15
def WALK_FRAME_COUNT : Int := 4

/-! ## Data model -/

/-- The `SDL_Rect` of the player: top-left corner and size. -/
structure SDL_Rect where
  x : Int
  y : Int
  w : Int
  h : Int
  deriving DecidableEq, Repr

/-- The `Player` struct. -/
structure Player where
  rect : SDL_Rect
  velX : Int
  velY : Int
  onGround : Bool
  facingLeft : Bool
  deriving DecidableEq, Repr

/-- The player together with the three global animation variables. -/
structure Game where
  player : Player
  currentFrame : Int
  animationSpeed : Int
  frameCounter : Int
  deriving DecidableEq, Repr

/-- The three entries of the keyboard state read by the loop:
`SDL_SCANCODE_A` (left), `SDL_SCANCODE_D` (right), `SDL_SCANCODE_W` (jump). -/
structure Keys where
  a : Bool
  d : Bool
  w : Bool
  deriving DecidableEq, Repr

/-- The range of a C `int` (32 bits). -/
def InIntRange (z : Int) : Prop := -2147483648 ≤ z ∧ z ≤ 2147483647

instance (z : Int) : Decidable (InIntRange z) := by
  unfold InIntRange; exact inferInstance

/-! ## `GRAVITY` is the `float` literal `1.0f` -/

/-- Number of low bits a natural number loses when it is stored in the 24-bit
significand of a binary32 float (`fuel` bounds the search; 128 covers the whole
finite range of the format). -/
def f32Shift : Nat → Nat → Nat
  | 0, _ => 0
  | fuel + 1, m => if m < 16777216 then 0 else 1 + f32Shift fuel (m / 2)

/-- Conversion `int → float` read back as an integer: the nearest binary32 value,
ties to even.  Integers of magnitude below `2^24` are represented exactly. -/
def f32OfInt (z : Int) : Int :=
  let m := z.natAbs
  let s := f32Shift 128 m
  let q := m / 2 ^ s
  let r := m % 2 ^ s
  let up : Bool := decide (2 ^ s < 2 * r) || (decide (2 * r = 2 ^ s) && decide (q % 2 = 1))
  Int.sign z * (((if up then q + 1 else q) * 2 ^ s : Nat) : Int)

/-- The statement `velY += GRAVITY`: `velY` is converted to `float`, `1.0f` is
added in `float` arithmetic and the sum is converted back to `int`. -/
def addGravity (velY : Int) : Int := f32OfInt (f32OfInt velY + 1)

/-! ## The update functions -/

def movePlayer (player : Player) (dx dy : Int) : Player :=
  { player with rect := { player.rect with x := player.rect.x + dx, y := player.rect.y + dy } }

def applyGravity (player : Player) : Player :=
  if !player.onGround then { player with velY := addGravity player.velY } else player

def jump (player : Player) : Player :=
  if player.onGround then { player with velY := -JUMP_STRENGTH, onGround := false } else player

def checkCollision (player : Player) (groundY : Int) : Player :=
  if player.rect.y + player.rect.h ≥ groundY then
    { player with rect := { player.rect with y := groundY - player.rect.h },
                  velY := 0, onGround := true }
  else
    { player with onGround := false }

def checkBoundary (player : Player) : Player :=
  let p1 : Player :=
    if player.rect.x < 0 then { player with rect := { player.rect with x := 0 } } else player
  if p1.rect.x + p1.rect.w > SCREEN_WIDTH then
    { p1 with rect := { p1.rect with x := SCREEN_WIDTH - p1.rect.w } }
  else p1

/-- The function `handleAnimation`: it reads `player->velX` and updates the globals
`frameCounter` and `currentFrame`; `%` is C remainder (`Int.tmod`). -/
def handleAnimation (g : Game) (speed : Int) : Game :=
  if g.player.velX ≠ 0 then
    let fc := g.frameCounter + 1
    if fc ≥ speed then
      { g with frameCounter := 0, currentFrame := Int.tmod (g.currentFrame + 1) WALK_FRAME_COUNT }
    else
      { g with frameCounter := fc }
  else
    { g with currentFrame := 0 }

/-! ## The body of the game loop -/

/-- Keyboard handling at the top of the loop body: horizontal velocity and facing. -/
def handleKeys (keys : Keys) (player : Player) : Player :=
  if keys.a then { player with velX := -PLAYER_SPEED, facingLeft := true }
  else if keys.d then { player with velX := PLAYER_SPEED, facingLeft := false }
  else { player with velX := 0 }

/-- The guarded call `if (keystates[SDL_SCANCODE_W] && player.onGround) jump(&player);`. -/
def handleJumpKey (keys : Keys) (player : Player) : Player :=
  if keys.w && player.onGround then jump player else player

/-- The loop body up to and including the call of `movePlayer`: keys, jump,
gravity, movement. -/
def preCollision (keys : Keys) (player : Player) : Player :=
  let p := handleKeys keys player
  let p := handleJumpKey keys p
  let p := applyGravity p
  movePlayer p p.velX p.velY

/-- One pass through the update part of the loop body, for a ground line `groundY`. -/
def frameStep (groundY : Int) (keys : Keys) (g : Game) : Game :=
  let p := handleKeys keys g.player
  let p := handleJumpKey keys p
  let p := applyGravity p
  let p := movePlayer p p.velX p.velY
  let p := checkCollision p groundY
  let p := checkBoundary p
  handleAnimation { g with player := p } g.animationSpeed

/-- The loop body of `main`: the ground line is `SCREEN_HEIGHT - GROUND_HEIGHT`. -/
def mainFrame (keys : Keys) (g : Game) : Game :=
  frameStep (SCREEN_HEIGHT - GROUND_HEIGHT) keys g

/-- The state after the first `n` frames, frame `i` (counted from 0) reading the
keyboard state `keys i`. -/
def runFrames (groundY : Int) (keys : Nat → Keys) : Nat → Game → Game
  | 0, g => g
  | n + 1, g => frameStep groundY (keys n) (runFrames groundY keys n g)

/-- The state `main` enters its loop with. -/
def spawn : Game :=
  { player :=
      { rect :=
          { x := SCREEN_WIDTH / 2 - (PLAYER_WIDTH * PLAYER_SCALE) / 2,
            y := SCREEN_HEIGHT - GROUND_HEIGHT - (PLAYER_HEIGHT * PLAYER_SCALE),
            w := PLAYER_WIDTH * PLAYER_SCALE,
            h := PLAYER_HEIGHT * PLAYER_SCALE },
        velX := 0, velY := 0, onGround := false, facingLeft := false },
    currentFrame := 0,
    animationSpeed := 6,
    frameCounter := 0 }

/-- The state after `n` frames of the program, started from `spawn`. -/
def runMain (keys : Nat → Keys) (n : Nat) : Game :=
  runFrames (SCREEN_HEIGHT - GROUND_HEIGHT) keys n spawn

/-- The spawn state moved to `(x, y)` with vertical velocity `velY` and the
`onGround` flag set. -/
def standing (x y velY : Int) : Game :=
  { spawn with
    player :=
      { spawn.player with
        rect := { spawn.player.rect with x := x, y := y },
        velY := velY, onGround := true } }

/-- The spawn state lifted to height `y`: airborne (`onGround = false`) and at
rest (`velY = 0`), as `main` builds it. -/
def airborne (y : Int) : Game :=
  { spawn with player := { spawn.player with rect := { spawn.player.rect with y := y } } }

/-- A player of the spawn height that is wider than the screen. -/
def widePlayer : Player :=
  { rect := { x := 0, y := 728, w := 1300, h := 112 },
    velX := 0, velY := 0, onGround := true, facingLeft := false }

/-! ## The same statements in 32-bit arithmetic -/

/-- The value an `int` variable holds after a result `z` is stored in it: `z`
reduced modulo `2^32` into `[-2^31, 2^31)`. -/
def wrap32 (z : Int) : Int := (z + 2147483648) % 4294967296 - 2147483648

/-- The statement `velY += GRAVITY` with the conversion of the `float` sum back
to `int`; the one sum outside `int`, `2^31`, is stored as `-2^31`. -/
def Wrap.addGravity (velY : Int) : Int := wrap32 (Hell.addGravity velY)

def Wrap.movePlayer (player : Player) (dx dy : Int) : Player :=
  { player with
    rect := { player.rect with x := wrap32 (player.rect.x + dx),
                               y := wrap32 (player.rect.y + dy) } }

def Wrap.applyGravity (player : Player) : Player :=
  if !player.onGround then { player with velY := Wrap.addGravity player.velY } else player

def Wrap.checkCollision (player : Player) (groundY : Int) : Player :=
  if wrap32 (player.rect.y + player.rect.h) ≥ groundY then
    { player with rect := { player.rect with y := wrap32 (groundY - player.rect.h) },
                  velY := 0, onGround := true }
  else
    { player with onGround := false }

def Wrap.checkBoundary (player : Player) : Player :=
  let p1 : Player :=
    if player.rect.x < 0 then { player with rect := { player.rect with x := 0 } } else player
  if wrap32 (p1.rect.x + p1.rect.w) > SCREEN_WIDTH then
    { p1 with rect := { p1.rect with x := wrap32 (SCREEN_WIDTH - p1.rect.w) } }
  else p1

def Wrap.handleAnimation (g : Game) (speed : Int) : Game :=
  if g.player.velX ≠ 0 then
    let fc := wrap32 (g.frameCounter + 1)
    if fc ≥ speed then
      { g with frameCounter := 0,
               currentFrame := Int.tmod (wrap32 (g.currentFrame + 1)) WALK_FRAME_COUNT }
    else
      { g with frameCounter := fc }
  else
    { g with currentFrame := 0 }

/-- The loop body up to and including the call of `movePlayer`. -/
def Wrap.preCollision (keys : Keys) (player : Player) : Player :=
  let p := handleKeys keys player
  let p := handleJumpKey keys p
  let p := Wrap.applyGravity p
  Wrap.movePlayer p p.velX p.velY

/-- One pass through the update part of the loop body, for a ground line `groundY`. -/
def Wrap.frameStep (groundY : Int) (keys : Keys) (g : Game) : Game :=
  let p := handleKeys keys g.player
  let p := handleJumpKey keys p
  let p := Wrap.applyGravity p
  let p := Wrap.movePlayer p p.velX p.velY
  let p := Wrap.checkCollision p groundY
  let p := Wrap.checkBoundary p
  Wrap.handleAnimation { g with player := p } g.animationSpeed

/-- The state after the first `n` frames, frame `i` reading the keyboard state `keys i`. -/
def Wrap.runFrames (groundY : Int) (keys : Nat → Keys) : Nat → Game → Game
  | 0, g => g
  | n + 1, g => Wrap.frameStep groundY (keys n) (Wrap.runFrames groundY keys n g)

/-- A falling player of the spawn size whose `rect.y` is the largest `int`. -/
def deepPlayer : Player :=
  { rect := { x := 536, y := 2147483647, w := 128, h := 112 },
    velX := 0, velY := 9, onGround := false, facingLeft := false }

/-- The spawn state walking right (`velX = 5`), with `currentFrame = cf` and
`frameCounter = fc`. -/
def walking (cf fc : Int) : Game :=
  { spawn with player := { spawn.player with velX := 5 }, currentFrame := cf, frameCounter := fc }

/-! ## Basic facts about the model -/

theorem f32OfInt_of_natAbs_lt (z : Int) (h : z.natAbs < 16777216) : f32OfInt z = z := by
  have hs : f32Shift 128 z.natAbs = 0 := by simp [f32Shift, h]
  simp only [f32OfInt, hs, pow_zero, Nat.mod_one, Nat.div_one, mul_zero, mul_one]
  simp [Int.sign_mul_natAbs, Int.sign_mul_abs]

/-- Below `2^24` in magnitude the `float` addition of `1.0f` is exact. -/
theorem addGravity_exact (v : Int) (hlo : -16777216 < v) (hhi : v < 16777215) :
    addGravity v = v + 1 := by
  unfold addGravity
  rw [f32OfInt_of_natAbs_lt v (by omega), f32OfInt_of_natAbs_lt (v + 1) (by omega)]

/-- At `velY = 2^24` the `float` sum `velY + 1.0f` rounds back to `2^24`: the
statement `velY += GRAVITY` no longer changes `velY`. -/
theorem addGravity_saturates : addGravity 16777216 = 16777216 := by decide

theorem handleAnimation_player (g : Game) (speed : Int) :
    (handleAnimation g speed).player = g.player := by
  simp only [handleAnimation]
  split_ifs <;> rfl

theorem checkBoundary_vertical (p : Player) :
    (checkBoundary p).rect.y = p.rect.y ∧ (checkBoundary p).rect.h = p.rect.h ∧
    (checkBoundary p).rect.w = p.rect.w ∧
    (checkBoundary p).velX = p.velX ∧ (checkBoundary p).velY = p.velY ∧
    (checkBoundary p).onGround = p.onGround ∧ (checkBoundary p).facingLeft = p.facingLeft := by
  simp only [checkBoundary]
  split_ifs <;> simp

/-- The player at the end of a frame: `handleAnimation`, the last step, does
not write to the player. -/
theorem frameStep_player (groundY : Int) (keys : Keys) (g : Game) :
    (frameStep groundY keys g).player =
      checkBoundary (checkCollision (preCollision keys g.player) groundY) := by
  simp only [frameStep, preCollision, handleAnimation_player]

/-- C5: `jump` on a grounded player sets `velY = -15` and `onGround = false` and
nothing else; on an airborne player it changes no field, and a whole frame with
the jump key held then ends in the same state as the frame with the key
released. -/
theorem jump_guarded_by_onGround (groundY : Int) (a d : Bool) (g : Game) :
    if g.player.onGround = true then
      jump g.player = { g.player with velY := -15, onGround := false }
    else
      jump g.player = g.player ∧
      frameStep groundY { a := a, d := d, w := true } g =
        frameStep groundY { a := a, d := d, w := false } g := by
  by_cases h : g.player.onGround = true
  · simp [jump, h, JUMP_STRENGTH]
  · have hk : ∀ w : Bool, (handleKeys { a := a, d := d, w := w } g.player).onGround = false := by
      intro w
      simp only [handleKeys]
      split_ifs <;> simpa using h
    have hsame : handleKeys { a := a, d := d, w := true } g.player =
        handleKeys { a := a, d := d, w := false } g.player := by
      simp [handleKeys]
    simp only [h, if_false, jump, frameStep, handleJumpKey, hk, hsame]
    simp

/-- C6: `checkBoundary` is idempotent. -/
theorem checkBoundary_idempotent (player : Player) :
    checkBoundary (checkBoundary player) = checkBoundary player := by
  rcases player with ⟨⟨x, y, w, h⟩, vx, vy, og, fl⟩
  simp only [checkBoundary, SCREEN_WIDTH]
  split_ifs <;> first | rfl | (exfalso; simp at *; omega)

/-! ## Whole frames -/

/-- The vertical state at the end of a frame is the one `checkCollision` leaves. -/
theorem frameStep_vertical (groundY : Int) (keys : Keys) (g : Game) :
    ((frameStep groundY keys g).player.onGround = true ∧
      (frameStep groundY keys g).player.rect.y + (frameStep groundY keys g).player.rect.h
        = groundY ∧
      (frameStep groundY keys g).player.velY = 0) ∨
    ((frameStep groundY keys g).player.onGround = false ∧
      (frameStep groundY keys g).player.rect.y + (frameStep groundY keys g).player.rect.h
        < groundY) := by
  rw [frameStep_player]
  generalize preCollision keys g.player = q
  obtain ⟨hy, hh, -, -, hv, hg, -⟩ := checkBoundary_vertical (checkCollision q groundY)
  rw [hy, hh, hv, hg]
  by_cases hc : q.rect.y + q.rect.h ≥ groundY
  · left
    simp [checkCollision, hc]
  · right
    simp only [checkCollision, hc, if_false, true_and]
    omega

/-- C1: at the end of every frame the bottom edge `rect.y + rect.h` is at most
`groundY`, and exactly one of "grounded, on the line, `velY = 0`" and "airborne,
strictly above the line" holds; hence every state the program reaches from
`spawn` has its bottom edge at most at the ground line and `velY = 0` whenever
`onGround` is set. -/
theorem frame_vertical_invariant (groundY : Int) (keys : Keys) (g : Game)
    (inputs : Nat → Keys) (n : Nat) :
    ((frameStep groundY keys g).player.rect.y + (frameStep groundY keys g).player.rect.h
        ≤ groundY ∧
      Xor'
        ((frameStep groundY keys g).player.onGround = true ∧
          (frameStep groundY keys g).player.rect.y + (frameStep groundY keys g).player.rect.h
            = groundY ∧
          (frameStep groundY keys g).player.velY = 0)
        ((frameStep groundY keys g).player.onGround = false ∧
          (frameStep groundY keys g).player.rect.y + (frameStep groundY keys g).player.rect.h
            < groundY)) ∧
    ((runMain inputs n).player.rect.y + (runMain inputs n).player.rect.h
        ≤ SCREEN_HEIGHT - GROUND_HEIGHT ∧
      ((runMain inputs n).player.onGround = true → (runMain inputs n).player.velY = 0)) := by
  constructor
  · rcases frameStep_vertical groundY keys g with ⟨h1, h2, h3⟩ | ⟨h1, h2⟩
    · refine ⟨by omega, Or.inl ⟨⟨h1, h2, h3⟩, ?_⟩⟩
      rintro ⟨h4, -⟩
      rw [h1] at h4
      exact Bool.noConfusion h4
    · refine ⟨by omega, Or.inr ⟨⟨h1, h2⟩, ?_⟩⟩
      rintro ⟨h4, -⟩
      rw [h1] at h4
      exact Bool.noConfusion h4
  · cases n with
    | zero => simp [runMain, runFrames, spawn, SCREEN_HEIGHT, GROUND_HEIGHT, PLAYER_HEIGHT,
        PLAYER_SCALE]
    | succ k =>
      simp only [runMain, runFrames]
      rcases frameStep_vertical (SCREEN_HEIGHT - GROUND_HEIGHT) (inputs k)
        (runFrames (SCREEN_HEIGHT - GROUND_HEIGHT) inputs k spawn) with ⟨-, h2, h3⟩ | ⟨h1, h2⟩
      · exact ⟨by omega, fun _ => h3⟩
      · refine ⟨by omega, fun h => ?_⟩
        rw [h1] at h
        exact Bool.noConfusion h

/-- C1 read at the spawn state: the flag is clear there and it is set, with
`velY = 0`, after one frame with no key held. -/
theorem frame_vertical_invariant_witness :
    (runMain (fun _ => ⟨false, false, false⟩) 1).player.onGround = true ∧
    (runMain (fun _ => ⟨false, false, false⟩) 1).player.velY = 0 :=
  ⟨by decide,
    (frame_vertical_invariant 840 ⟨false, false, false⟩ spawn
      (fun _ => ⟨false, false, false⟩) 1).2.2 (by decide)⟩

/-- One frame with only the right key held, for a player standing on the ground
line of the program at `x ≥ 0`. -/
theorem mainFrame_walk_right (x cf fc : Int) (hx : 0 ≤ x) :
    mainFrame ⟨false, true, false⟩
        ⟨⟨⟨x, 728, 128, 112⟩, 5, 0, true, false⟩, cf, 6, fc⟩ =
      ⟨⟨⟨min (x + 5) 1072, 728, 128, 112⟩, 5, 0, true, false⟩,
        if fc + 1 ≥ 6 then Int.tmod (cf + 1) 4 else cf, 6,
        if fc + 1 ≥ 6 then 0 else fc + 1⟩ := by
  have hx2 : ¬ x + 5 < 0 := by omega
  by_cases hc : x + 5 + 128 > 1200
  · have hm : min (x + 5) 1072 = 1072 := by omega
    by_cases hf : fc + 1 ≥ 6 <;>
      simp [mainFrame, frameStep, handleKeys, handleJumpKey, applyGravity, movePlayer,
        checkCollision, checkBoundary, handleAnimation, SCREEN_WIDTH, SCREEN_HEIGHT,
        GROUND_HEIGHT, PLAYER_SPEED, WALK_FRAME_COUNT, hx2, hc, hm, hf]
  · have hm : min (x + 5) 1072 = x + 5 := by omega
    by_cases hf : fc + 1 ≥ 6 <;>
      simp [mainFrame, frameStep, handleKeys, handleJumpKey, applyGravity, movePlayer,
        checkCollision, checkBoundary, handleAnimation, SCREEN_WIDTH, SCREEN_HEIGHT,
        GROUND_HEIGHT, PLAYER_SPEED, WALK_FRAME_COUNT, hx2, hc, hm, hf]

/-- The whole state after `n + 1` frames of walking right from a state whose
first frame ends like the first frame of `spawn`. -/
theorem runFrames_walk_right (g : Game)
    (h1 : mainFrame ⟨false, true, false⟩ g =
      ⟨⟨⟨541, 728, 128, 112⟩, 5, 0, true, false⟩, 0, 6, 1⟩) (n : Nat) :
    runFrames (SCREEN_HEIGHT - GROUND_HEIGHT) (fun _ => ⟨false, true, false⟩) (n + 1) g =
      ⟨⟨⟨min (536 + 5 * ((n : Int) + 1)) 1072, 728, 128, 112⟩, 5, 0, true, false⟩,
        (((n : Int) + 1) / 6) % 4, 6, ((n : Int) + 1) % 6⟩ := by
  induction n with
  | zero =>
    simp only [runFrames]
    exact h1
  | succ k ih =>
    rw [runFrames, ih]
    have hstep := mainFrame_walk_right (min (536 + 5 * ((k : Int) + 1)) 1072)
      ((((k : Int) + 1) / 6) % 4) (((k : Int) + 1) % 6) (by omega)
    simp only [mainFrame] at hstep
    rw [hstep]
    have ht : Int.tmod ((((k : Int) + 1) / 6) % 4 + 1) 4 = ((((k : Int) + 1) / 6) % 4 + 1) % 4 :=
      Int.tmod_eq_emod (by omega) (by omega)
    rw [ht]
    have e1 : min (min (536 + 5 * ((k : Int) + 1)) 1072 + 5) 1072 =
        min (536 + 5 * (((k + 1 : Nat) : Int) + 1)) 1072 := by
      push_cast; omega
    have e2 : (if ((k : Int) + 1) % 6 + 1 ≥ 6 then ((((k : Int) + 1) / 6) % 4 + 1) % 4
        else (((k : Int) + 1) / 6) % 4) = ((((k + 1 : Nat) : Int) + 1) / 6) % 4 := by
      push_cast; split_ifs <;> omega
    have e3 : (if ((k : Int) + 1) % 6 + 1 ≥ 6 then 0 else ((k : Int) + 1) % 6 + 1) =
        (((k + 1 : Nat) : Int) + 1) % 6 := by
      push_cast; split_ifs <;> omega
    rw [e1, e2, e3]

/-- C8: from the spawn state (as `main` builds it, and also with the `onGround`
flag already set), after `N ≥ 1` frames with only the right key held,
`rect.x = min (536 + 5 N) 1072`, `rect.y = 728`, `velY = 0`, `onGround = true`
and `currentFrame = (N / 6) % 4`. -/
theorem walk_right_scenario (N : Nat) (hN : 1 ≤ N) :
    ((runMain (fun _ => ⟨false, true, false⟩) N).player.rect.x = min (536 + 5 * (N : Int)) 1072 ∧
      (runMain (fun _ => ⟨false, true, false⟩) N).player.rect.y = 728 ∧
      (runMain (fun _ => ⟨false, true, false⟩) N).player.velY = 0 ∧
      (runMain (fun _ => ⟨false, true, false⟩) N).player.onGround = true ∧
      (runMain (fun _ => ⟨false, true, false⟩) N).currentFrame = ((N : Int) / 6) % 4) ∧
    ((runFrames 840 (fun _ => ⟨false, true, false⟩) N (standing 536 728 0)).player.rect.x
        = min (536 + 5 * (N : Int)) 1072 ∧
      (runFrames 840 (fun _ => ⟨false, true, false⟩) N (standing 536 728 0)).player.rect.y = 728 ∧
      (runFrames 840 (fun _ => ⟨false, true, false⟩) N (standing 536 728 0)).player.velY = 0 ∧
      (runFrames 840 (fun _ => ⟨false, true, false⟩) N (standing 536 728 0)).player.onGround
        = true ∧
      (runFrames 840 (fun _ => ⟨false, true, false⟩) N (standing 536 728 0)).currentFrame
        = ((N : Int) / 6) % 4) := by
  obtain ⟨n, rfl⟩ : ∃ n, N = n + 1 := ⟨N - 1, by omega⟩
  have hG : SCREEN_HEIGHT - GROUND_HEIGHT = 840 := by decide
  constructor
  · have h := runFrames_walk_right spawn (by decide) n
    rw [runMain, h]
    refine ⟨?_, rfl, rfl, rfl, ?_⟩ <;> simp
  · have h := runFrames_walk_right (standing 536 728 0) (by decide) n
    rw [hG] at h
    rw [h]
    refine ⟨?_, rfl, rfl, rfl, ?_⟩ <;> simp

/-- C8 after 108 frames, the first frame that ends at the right wall. -/
theorem walk_right_scenario_witness :
    (runMain (fun _ => ⟨false, true, false⟩) 108).player.rect.x = 1072 ∧
    (runMain (fun _ => ⟨false, true, false⟩) 108).currentFrame = 2 := by
  have h := (walk_right_scenario 108 (by decide)).1
  exact ⟨by rw [h.1]; decide, by rw [h.2.2.2.2]; decide⟩

/-- Step of the triangular numbers `k (k + 1) / 2`. -/
theorem tri_succ (k : Int) : (k + 1) * (k + 1 + 1) / 2 = k * (k + 1) / 2 + (k + 1) := by
  have h : (k + 1) * (k + 1 + 1) = k * (k + 1) + (k + 1) * 2 := by ring
  rw [h, Int.add_mul_ediv_right _ _ (by norm_num)]

/-- A triangular number below `2^32` has an index below `2^17`. -/
theorem tri_index_small (k : Int) (h0 : 0 ≤ k) (h : k * (k + 1) / 2 < 4294967296) :
    k < 131072 := by
  by_contra hk
  have hk2 : 131072 ≤ k := by omega
  have h1 : (131072 : Int) * 131072 ≤ k * (k + 1) := by nlinarith
  omega

/-- The height `15 k - k (k + 1) / 2` of the jump is positive during frames 1 to 28. -/
theorem jumpHeight_pos (k : Nat) (h1 : 1 ≤ k) (h2 : k ≤ 28) :
    0 < 15 * (k : Int) - (k : Int) * ((k : Int) + 1) / 2 := by
  interval_cases k <;> decide

/-- The height of the jump never exceeds 105, and is 105 only at frames 14 and 15. -/
theorem jumpHeight_le (k : Nat) (h2 : k ≤ 28) :
    15 * (k : Int) - (k : Int) * ((k : Int) + 1) / 2 ≤ 105 ∧
    (15 * (k : Int) - (k : Int) * ((k : Int) + 1) / 2 = 105 → k = 14 ∨ k = 15) := by
  interval_cases k <;> decide

/-! ## The 32-bit pipeline -/

theorem wrap32_of_inRange (z : Int) (h : InIntRange z) : wrap32 z = z := by
  simp only [wrap32, InIntRange] at *
  omega

theorem wrap32_inRange (z : Int) : InIntRange (wrap32 z) := by
  simp only [wrap32, InIntRange]
  omega

/-! ### Where no `int` result leaves its range the two readings agree -/

theorem wrap_movePlayer_eq (p : Player) (dx dy : Int) (hx : InIntRange (p.rect.x + dx))
    (hy : InIntRange (p.rect.y + dy)) : Wrap.movePlayer p dx dy = movePlayer p dx dy := by
  simp only [Wrap.movePlayer, movePlayer, wrap32_of_inRange _ hx, wrap32_of_inRange _ hy]

theorem wrap_checkCollision_eq (p : Player) (groundY : Int)
    (hsum : InIntRange (p.rect.y + p.rect.h)) (hdiff : InIntRange (groundY - p.rect.h)) :
    Wrap.checkCollision p groundY = checkCollision p groundY := by
  simp only [Wrap.checkCollision, checkCollision, wrap32_of_inRange _ hsum,
    wrap32_of_inRange _ hdiff]

theorem wrap_checkBoundary_eq (p : Player) (hsum : InIntRange (max p.rect.x 0 + p.rect.w))
    (hdiff : InIntRange (SCREEN_WIDTH - p.rect.w)) :
    Wrap.checkBoundary p = checkBoundary p := by
  by_cases hneg : p.rect.x < 0
  · rw [max_eq_right (by omega)] at hsum
    simp only [Wrap.checkBoundary, checkBoundary, hneg, if_true, wrap32_of_inRange _ hsum,
      wrap32_of_inRange _ hdiff]
  · rw [max_eq_left (by omega)] at hsum
    simp only [Wrap.checkBoundary, checkBoundary, hneg, if_false, wrap32_of_inRange _ hsum,
      wrap32_of_inRange _ hdiff]

theorem wrap_handleAnimation_eq (g : Game) (speed : Int)
    (hfc : InIntRange (g.frameCounter + 1)) (hcf : InIntRange (g.currentFrame + 1)) :
    Wrap.handleAnimation g speed = handleAnimation g speed := by
  simp only [Wrap.handleAnimation, handleAnimation, wrap32_of_inRange _ hfc,
    wrap32_of_inRange _ hcf]

theorem wrap_handleAnimation_player (g : Game) (speed : Int) :
    (Wrap.handleAnimation g speed).player = g.player := by
  simp only [Wrap.handleAnimation]
  split_ifs <;> rfl

theorem wrap_frameStep_player (groundY : Int) (keys : Keys) (g : Game) :
    (Wrap.frameStep groundY keys g).player =
      Wrap.checkBoundary (Wrap.checkCollision (Wrap.preCollision keys g.player) groundY) := by
  simp only [Wrap.frameStep, Wrap.preCollision, wrap_handleAnimation_player]

theorem wrap_checkBoundary_vertical (p : Player) :
    (Wrap.checkBoundary p).rect.y = p.rect.y ∧ (Wrap.checkBoundary p).rect.h = p.rect.h ∧
    (Wrap.checkBoundary p).rect.w = p.rect.w ∧
    (Wrap.checkBoundary p).velX = p.velX ∧ (Wrap.checkBoundary p).velY = p.velY ∧
    (Wrap.checkBoundary p).onGround = p.onGround ∧
    (Wrap.checkBoundary p).facingLeft = p.facingLeft := by
  simp only [Wrap.checkBoundary]
  split_ifs <;> simp

theorem wrap_checkCollision_shape (p : Player) (groundY : Int) :
    (Wrap.checkCollision p groundY).rect.w = p.rect.w ∧
    (Wrap.checkCollision p groundY).rect.h = p.rect.h ∧
    (Wrap.checkCollision p groundY).rect.x = p.rect.x ∧
    (Wrap.checkCollision p groundY).velX = p.velX ∧
    (Wrap.checkCollision p groundY).facingLeft = p.facingLeft := by
  simp only [Wrap.checkCollision]
  split_ifs <;> simp

theorem wrap_preCollision_shape (keys : Keys) (p : Player) :
    (Wrap.preCollision keys p).rect.w = p.rect.w ∧
    (Wrap.preCollision keys p).rect.h = p.rect.h := by
  simp only [Wrap.preCollision, Wrap.movePlayer, Wrap.applyGravity, handleJumpKey, jump,
    handleKeys]
  split_ifs <;> simp

theorem wrap_preCollision_horizontal (keys : Keys) (p : Player) :
    (Wrap.preCollision keys p).rect.x = wrap32 (p.rect.x + (handleKeys keys p).velX) := by
  simp only [Wrap.preCollision, Wrap.movePlayer, Wrap.applyGravity, handleJumpKey, jump,
    handleKeys]
  split_ifs <;> simp

/-- Vertical part of a frame of an airborne player, before the floor check. -/
theorem wrap_preCollision_airborne (keys : Keys) (p : Player) (h : p.onGround = false) :
    (Wrap.preCollision keys p).velY = Wrap.addGravity p.velY ∧
    (Wrap.preCollision keys p).rect.y = wrap32 (p.rect.y + Wrap.addGravity p.velY) := by
  rcases p with ⟨⟨x, y, w, ht⟩, vx, vy, og, fl⟩
  simp only at h
  subst h
  simp only [Wrap.preCollision, Wrap.movePlayer, Wrap.applyGravity, handleJumpKey, jump,
    handleKeys]
  split_ifs <;> simp_all

/-- Vertical part of a frame of a grounded player with the jump key held. -/
theorem wrap_preCollision_jump (keys : Keys) (p : Player) (h : p.onGround = true)
    (hw : keys.w = true) :
    (Wrap.preCollision keys p).velY = -14 ∧
    (Wrap.preCollision keys p).rect.y = wrap32 (p.rect.y + -14) := by
  rcases p with ⟨⟨x, y, w, ht⟩, vx, vy, og, fl⟩
  simp only at h
  subst h
  have hg : Wrap.addGravity (-JUMP_STRENGTH) = -14 := by decide
  simp only [Wrap.preCollision, Wrap.movePlayer, Wrap.applyGravity, handleJumpKey, jump,
    handleKeys, hw]
  split_ifs <;> simp_all

/-- Below `2^24` in magnitude the step `velY += GRAVITY` adds one. -/
theorem wrap_addGravity_exact (v : Int) (hlo : -16777216 < v) (hhi : v < 16777215) :
    Wrap.addGravity v = v + 1 := by
  rw [Wrap.addGravity, addGravity_exact v hlo hhi]
  exact wrap32_of_inRange _ ⟨by omega, by omega⟩

/-! ### The single steps -/

/-- C3 fails where `rect.y + rect.h` leaves the range of `int`: `deepPlayer` has
`rect.y ≥ groundY - rect.h` for `groundY = 840`, and `checkCollision` leaves its
`rect.y` and `velY` and clears `onGround`. -/
theorem checkCollision_counterexample :
    deepPlayer.rect.y ≥ 840 - deepPlayer.rect.h ∧
    (Wrap.checkCollision deepPlayer 840).rect.y = 2147483647 ∧
    (Wrap.checkCollision deepPlayer 840).velY = 9 ∧
    (Wrap.checkCollision deepPlayer 840).onGround = false ∧
    ¬ ((Wrap.checkCollision deepPlayer 840).rect.y + (Wrap.checkCollision deepPlayer 840).rect.h
          = 840 ∧
        (Wrap.checkCollision deepPlayer 840).velY = 0 ∧
        (Wrap.checkCollision deepPlayer 840).onGround = true) := by
  decide

/-- C3, amended: when `rect.y + rect.h` and `groundY - rect.h` are in the range
of `int`, a player whose `rect.y` was at or beyond `groundY - rect.h` has, after
`checkCollision`, its bottom edge on the ground line, `velY = 0` and
`onGround = true`; any other player keeps `rect.y` and `velY` and has
`onGround = false`; `rect.x`, `rect.w`, `rect.h`, `velX` and `facingLeft` are
never changed. -/
theorem checkCollision_postcondition (player : Player) (groundY : Int)
    (hsum : InIntRange (player.rect.y + player.rect.h))
    (hdiff : InIntRange (groundY - player.rect.h)) :
    (if player.rect.y ≥ groundY - player.rect.h then
        (Wrap.checkCollision player groundY).rect.y + (Wrap.checkCollision player groundY).rect.h
          = groundY ∧
        (Wrap.checkCollision player groundY).velY = 0 ∧
        (Wrap.checkCollision player groundY).onGround = true
      else
        (Wrap.checkCollision player groundY).rect.y = player.rect.y ∧
        (Wrap.checkCollision player groundY).velY = player.velY ∧
        (Wrap.checkCollision player groundY).onGround = false) ∧
    (Wrap.checkCollision player groundY).rect.x = player.rect.x ∧
    (Wrap.checkCollision player groundY).rect.w = player.rect.w ∧
    (Wrap.checkCollision player groundY).rect.h = player.rect.h ∧
    (Wrap.checkCollision player groundY).velX = player.velX ∧
    (Wrap.checkCollision player groundY).facingLeft = player.facingLeft := by
  have h1 := wrap32_of_inRange _ hsum
  have h2 := wrap32_of_inRange _ hdiff
  by_cases hc : player.rect.y + player.rect.h ≥ groundY
  · have h3 : player.rect.y ≥ groundY - player.rect.h := by omega
    simp [Wrap.checkCollision, h1, h2, hc, h3]
  · have h3 : ¬ player.rect.y ≥ groundY - player.rect.h := by omega
    simp [Wrap.checkCollision, h1, hc, h3]

/-- C3, amended, at the player one pixel below the ground line of the program. -/
theorem checkCollision_postcondition_witness :
    InIntRange ((airborne 729).player.rect.y + (airborne 729).player.rect.h) ∧
    InIntRange (840 - (airborne 729).player.rect.h) ∧
    (Wrap.checkCollision (airborne 729).player 840).rect.y
      + (Wrap.checkCollision (airborne 729).player 840).rect.h = 840 ∧
    (Wrap.checkCollision (airborne 729).player 840).velY = 0 ∧
    (Wrap.checkCollision (airborne 729).player 840).onGround = true :=
  ⟨by decide, by decide,
    Eq.mp (if_pos (by decide))
      (checkCollision_postcondition (airborne 729).player 840 (by decide) (by decide)).1⟩

theorem wrap_checkBoundary_in_bounds (p : Player) (hw : p.rect.w ≤ SCREEN_WIDTH)
    (hwr : InIntRange p.rect.w) (hx : InIntRange p.rect.x)
    (hs : p.rect.x + p.rect.w ≤ 2147483647) :
    0 ≤ (Wrap.checkBoundary p).rect.x ∧
    (Wrap.checkBoundary p).rect.x ≤ SCREEN_WIDTH - (Wrap.checkBoundary p).rect.w := by
  rcases p with ⟨⟨x, y, w, h⟩, vx, vy, og, fl⟩
  simp only [SCREEN_WIDTH, InIntRange] at *
  by_cases hneg : x < 0
  · have e : wrap32 (0 + w) = w := by rw [zero_add]; exact wrap32_of_inRange _ hwr
    have hc : ¬ w > 1200 := by omega
    simp only [Wrap.checkBoundary, SCREEN_WIDTH, hneg, if_true, e, hc, if_false]
    omega
  · have e : wrap32 (x + w) = x + w := wrap32_of_inRange _ ⟨by omega, by omega⟩
    by_cases hc : x + w > 1200
    · have e2 : wrap32 (1200 - w) = 1200 - w := wrap32_of_inRange _ ⟨by omega, by omega⟩
      simp only [Wrap.checkBoundary, SCREEN_WIDTH, hneg, if_false, e, hc, if_true, e2]
      omega
    · simp only [Wrap.checkBoundary, SCREEN_WIDTH, hneg, if_false, e, hc]
      omega

/-- C2 fails for a player wider than the screen, where `checkBoundary` moves
`widePlayer` from `x = 0` to `x = -100`, and where `rect.x + rect.w` leaves the
range of `int`, as for the spawned player moved to `x = 2147483600`, which stays
there. -/
theorem checkBoundary_bounds_counterexample :
    (Wrap.checkBoundary widePlayer).rect.x = -100 ∧
    ¬ (0 ≤ (Wrap.checkBoundary widePlayer).rect.x ∧
        (Wrap.checkBoundary widePlayer).rect.x
          ≤ SCREEN_WIDTH - (Wrap.checkBoundary widePlayer).rect.w) ∧
    (Wrap.checkBoundary (standing 2147483600 728 0).player).rect.x = 2147483600 ∧
    ¬ (0 ≤ (Wrap.checkBoundary (standing 2147483600 728 0).player).rect.x ∧
        (Wrap.checkBoundary (standing 2147483600 728 0).player).rect.x
          ≤ SCREEN_WIDTH - (Wrap.checkBoundary (standing 2147483600 728 0).player).rect.w) := by
  decide

/-- C2, amended: for a player with `rect.x` and `rect.w` in the range of `int`,
at most as wide as the screen and with `rect.x + rect.w` not above the largest
`int`, `checkBoundary` leaves `0 ≤ rect.x ≤ SCREEN_WIDTH - rect.w`; so does a
whole frame when the moved `rect.x + velX` stays in the range of `int` and
`rect.x + velX + rect.w` does not exceed the largest `int`. -/
theorem checkBoundary_bounds (groundY : Int) (keys : Keys) (g : Game)
    (hw : g.player.rect.w ≤ SCREEN_WIDTH) (hwr : InIntRange g.player.rect.w)
    (hx : InIntRange g.player.rect.x)
    (hs : g.player.rect.x + g.player.rect.w ≤ 2147483647)
    (hmove : InIntRange (g.player.rect.x + (handleKeys keys g.player).velX))
    (hms : g.player.rect.x + (handleKeys keys g.player).velX + g.player.rect.w
      ≤ 2147483647) :
    (0 ≤ (Wrap.checkBoundary g.player).rect.x ∧
      (Wrap.checkBoundary g.player).rect.x
        ≤ SCREEN_WIDTH - (Wrap.checkBoundary g.player).rect.w) ∧
    (0 ≤ (Wrap.frameStep groundY keys g).player.rect.x ∧
      (Wrap.frameStep groundY keys g).player.rect.x
        ≤ SCREEN_WIDTH - (Wrap.frameStep groundY keys g).player.rect.w) := by
  refine ⟨wrap_checkBoundary_in_bounds _ hw hwr hx hs, ?_⟩
  rw [wrap_frameStep_player]
  obtain ⟨cw, -, cx, -, -⟩ := wrap_checkCollision_shape (Wrap.preCollision keys g.player) groundY
  obtain ⟨qw, -⟩ := wrap_preCollision_shape keys g.player
  have qx := wrap_preCollision_horizontal keys g.player
  rw [wrap32_of_inRange _ hmove] at qx
  apply wrap_checkBoundary_in_bounds
  · rw [cw, qw]; exact hw
  · rw [cw, qw]; exact hwr
  · rw [cx, qx]; exact hmove
  · rw [cx, cw, qx, qw]; exact hms

/-- C2, amended, at the spawn state with the right key held. -/
theorem checkBoundary_bounds_witness :
    spawn.player.rect.w ≤ SCREEN_WIDTH ∧
    InIntRange (spawn.player.rect.x + (handleKeys ⟨false, true, false⟩ spawn.player).velX) ∧
    0 ≤ (Wrap.frameStep 840 ⟨false, true, false⟩ spawn).player.rect.x ∧
    (Wrap.frameStep 840 ⟨false, true, false⟩ spawn).player.rect.x
      ≤ SCREEN_WIDTH - (Wrap.frameStep 840 ⟨false, true, false⟩ spawn).player.rect.w :=
  ⟨by decide, by decide,
    (checkBoundary_bounds 840 ⟨false, true, false⟩ spawn (by decide) (by decide) (by decide)
      (by decide) (by decide) (by decide)).2⟩

/-- The frame index after `handleAnimation`, for an index in the range of `int`. -/
theorem wrap_next_frame (cf : Int) (h : InIntRange cf) :
    Int.tmod (wrap32 (cf + 1)) WALK_FRAME_COUNT = Int.tmod (cf + 1) 4 := by
  by_cases hmax : cf = 2147483647
  · subst hmax; decide
  · simp only [InIntRange] at h
    rw [wrap32_of_inRange _ ⟨by omega, by omega⟩, WALK_FRAME_COUNT]

/-- C7 fails where `frameCounter++` leaves the range of `int`: walking with
`frameCounter = 2147483647` and `speed = 6`, `frameCounter + 1 ≥ speed`, yet
`handleAnimation` leaves `currentFrame = 0` and stores `-2147483648` in
`frameCounter`. -/
theorem handleAnimation_counterexample :
    (walking 0 2147483647).player.velX ≠ 0 ∧
    ¬ ((walking 0 2147483647).frameCounter + 1 < 6) ∧
    (Wrap.handleAnimation (walking 0 2147483647) 6).currentFrame = 0 ∧
    (Wrap.handleAnimation (walking 0 2147483647) 6).frameCounter = -2147483648 ∧
    ¬ ((Wrap.handleAnimation (walking 0 2147483647) 6).currentFrame
          = ((walking 0 2147483647).currentFrame + 1) % 4 ∧
        (Wrap.handleAnimation (walking 0 2147483647) 6).frameCounter = 0) := by
  decide

/-- C7, amended: `handleAnimation` keeps `currentFrame` inside
`[0, WALK_FRAME_COUNT)`; with `velX = 0` it sets `currentFrame = 0` and leaves
`frameCounter`; with `velX ≠ 0`, `frameCounter < 2147483647` and both globals in
the range of `int`, it either only counts (`frameCounter + 1 < speed`) or resets
the counter and moves `currentFrame` to `(currentFrame + 1) % 4`; started from
`currentFrame = 0` the index is in range after any number of frames. -/
theorem handleAnimation_frame_index (g : Game) (speed groundY : Int) (keys : Nat → Keys)
    (n : Nat) :
    ((0 ≤ g.currentFrame ∧ g.currentFrame < WALK_FRAME_COUNT) →
      0 ≤ (Wrap.handleAnimation g speed).currentFrame ∧
      (Wrap.handleAnimation g speed).currentFrame < WALK_FRAME_COUNT) ∧
    (if g.player.velX = 0 then
        (Wrap.handleAnimation g speed).currentFrame = 0 ∧
        (Wrap.handleAnimation g speed).frameCounter = g.frameCounter
      else
        (InIntRange g.frameCounter ∧ g.frameCounter < 2147483647 ∧ InIntRange g.currentFrame →
          if g.frameCounter + 1 < speed then
            (Wrap.handleAnimation g speed).currentFrame = g.currentFrame ∧
            (Wrap.handleAnimation g speed).frameCounter = g.frameCounter + 1
          else
            (Wrap.handleAnimation g speed).currentFrame = Int.tmod (g.currentFrame + 1) 4 ∧
            (0 ≤ g.currentFrame →
              (Wrap.handleAnimation g speed).currentFrame = (g.currentFrame + 1) % 4) ∧
            (Wrap.handleAnimation g speed).frameCounter = 0)) ∧
    (0 ≤ (Wrap.runFrames groundY keys n { g with currentFrame := 0 }).currentFrame ∧
      (Wrap.runFrames groundY keys n { g with currentFrame := 0 }).currentFrame
        < WALK_FRAME_COUNT) := by
  have step : ∀ (s : Game) (sp : Int), 0 ≤ s.currentFrame ∧ s.currentFrame < WALK_FRAME_COUNT →
      0 ≤ (Wrap.handleAnimation s sp).currentFrame ∧
      (Wrap.handleAnimation s sp).currentFrame < WALK_FRAME_COUNT := by
    intro s sp hs
    have hr : InIntRange s.currentFrame := by
      simp only [WALK_FRAME_COUNT] at hs
      exact ⟨by omega, by omega⟩
    have hw := wrap_next_frame s.currentFrame hr
    simp only [WALK_FRAME_COUNT] at hs hw
    simp only [Wrap.handleAnimation, WALK_FRAME_COUNT]
    split_ifs
    · have h1 : Int.tmod (s.currentFrame + 1) 4 = (s.currentFrame + 1) % 4 :=
        Int.tmod_eq_emod (by omega) (by omega)
      simp only [hw, h1]
      omega
    · exact hs
    · simp
  refine ⟨step g speed, ?_, ?_⟩
  · by_cases hv : g.player.velX = 0
    · simp [Wrap.handleAnimation, hv]
    · rw [if_neg hv]
      rintro ⟨hfc, hmax, hcf⟩
      have hw := wrap_next_frame g.currentFrame hcf
      have hfc2 : wrap32 (g.frameCounter + 1) = g.frameCounter + 1 := by
        simp only [InIntRange] at hfc
        exact wrap32_of_inRange _ ⟨by omega, by omega⟩
      by_cases hc : g.frameCounter + 1 < speed
      · have hc2 : ¬ g.frameCounter + 1 ≥ speed := by omega
        simp [Wrap.handleAnimation, hv, hc, hc2, hfc2]
      · have hc2 : g.frameCounter + 1 ≥ speed := by omega
        simp only [Wrap.handleAnimation, hv, hc, hc2, hfc2, hw, if_true, if_false, ne_eq,
          not_false_eq_true, true_and, and_true]
        intro h0
        exact Int.tmod_eq_emod (by omega) (by omega)
  · induction n with
    | zero => simp [Wrap.runFrames, WALK_FRAME_COUNT]
    | succ k ih =>
      simp only [Wrap.runFrames]
      exact step _ _ ih

/-- C7, amended, for a walking player whose counter reaches `speed = 6`: the
index moves from 3 to 0 and the counter is reset. -/
theorem handleAnimation_frame_index_witness :
    (walking 3 5).player.velX ≠ 0 ∧
    (InIntRange (walking 3 5).frameCounter ∧ (walking 3 5).frameCounter < 2147483647 ∧
      InIntRange (walking 3 5).currentFrame) ∧
    ¬ ((walking 3 5).frameCounter + 1 < 6) ∧
    (Wrap.handleAnimation (walking 3 5) 6).currentFrame = Int.tmod ((walking 3 5).currentFrame + 1) 4 ∧
    (0 ≤ (walking 3 5).currentFrame →
      (Wrap.handleAnimation (walking 3 5) 6).currentFrame = ((walking 3 5).currentFrame + 1) % 4) ∧
    (Wrap.handleAnimation (walking 3 5) 6).frameCounter = 0 :=
  ⟨by decide, by decide, by decide,
    Eq.mp (if_neg (by decide))
      (Eq.mp (if_neg (by decide))
        (handleAnimation_frame_index (walking 3 5) 6 840 (fun _ => ⟨false, true, false⟩) 0).2.1
        (by decide))⟩

/-! ### Vertical motion -/

/-- The vertical state after a frame, from the player handed to `checkCollision`. -/
theorem wrap_frameStep_vertical_of_pre (groundY : Int) (keys : Keys) (g : Game) :
    (Wrap.frameStep groundY keys g).player.rect.h = g.player.rect.h ∧
    (if wrap32 ((Wrap.preCollision keys g.player).rect.y + g.player.rect.h) ≥ groundY then
        (Wrap.frameStep groundY keys g).player.onGround = true ∧
        (Wrap.frameStep groundY keys g).player.velY = 0 ∧
        (Wrap.frameStep groundY keys g).player.rect.y = wrap32 (groundY - g.player.rect.h)
      else
        (Wrap.frameStep groundY keys g).player.onGround = false ∧
        (Wrap.frameStep groundY keys g).player.velY = (Wrap.preCollision keys g.player).velY ∧
        (Wrap.frameStep groundY keys g).player.rect.y
          = (Wrap.preCollision keys g.player).rect.y) := by
  obtain ⟨-, hqh⟩ := wrap_preCollision_shape keys g.player
  rw [wrap_frameStep_player]
  obtain ⟨hy, hh, -, -, hv, hg, -⟩ :=
    wrap_checkBoundary_vertical (Wrap.checkCollision (Wrap.preCollision keys g.player) groundY)
  rw [hy, hh, hv, hg, (wrap_checkCollision_shape _ _).2.1, hqh]
  refine ⟨rfl, ?_⟩
  by_cases hc : wrap32 ((Wrap.preCollision keys g.player).rect.y + g.player.rect.h) ≥ groundY
  · have hc2 : wrap32 ((Wrap.preCollision keys g.player).rect.y
        + (Wrap.preCollision keys g.player).rect.h) ≥ groundY := by rw [hqh]; exact hc
    simp [Wrap.checkCollision, hc, hc2, hqh]
  · have hc2 : ¬ wrap32 ((Wrap.preCollision keys g.player).rect.y
        + (Wrap.preCollision keys g.player).rect.h) ≥ groundY := by rw [hqh]; exact hc
    simp [Wrap.checkCollision, hc, hc2]

/-- A frame of an airborne player that does not reach the ground line. -/
theorem wrap_frameStep_fall (groundY : Int) (keys : Keys) (g : Game) (v : Int)
    (hair : g.player.onGround = false) (hv : g.player.velY = v)
    (hlo : -16777216 < v) (hhi : v < 16777215)
    (hy : InIntRange (g.player.rect.y + (v + 1)))
    (hsum : InIntRange (g.player.rect.y + (v + 1) + g.player.rect.h))
    (hfree : g.player.rect.y + (v + 1) + g.player.rect.h < groundY) :
    (Wrap.frameStep groundY keys g).player.onGround = false ∧
    (Wrap.frameStep groundY keys g).player.velY = v + 1 ∧
    (Wrap.frameStep groundY keys g).player.rect.y = g.player.rect.y + (v + 1) ∧
    (Wrap.frameStep groundY keys g).player.rect.h = g.player.rect.h := by
  obtain ⟨hqv, hqy⟩ := wrap_preCollision_airborne keys g.player hair
  rw [hv, wrap_addGravity_exact v hlo hhi] at hqv hqy
  rw [wrap32_of_inRange _ hy] at hqy
  obtain ⟨hh, hif⟩ := wrap_frameStep_vertical_of_pre groundY keys g
  rw [hqy, wrap32_of_inRange _ hsum, if_neg (by omega), hqv] at hif
  exact ⟨hif.1, hif.2.1, hif.2.2, hh⟩

/-- A frame of an airborne player that reaches the ground line. -/
theorem wrap_frameStep_land (groundY : Int) (keys : Keys) (g : Game) (v : Int)
    (hair : g.player.onGround = false) (hv : g.player.velY = v)
    (hlo : -16777216 < v) (hhi : v < 16777215)
    (hy : InIntRange (g.player.rect.y + (v + 1)))
    (hsum : InIntRange (g.player.rect.y + (v + 1) + g.player.rect.h))
    (hdiff : InIntRange (groundY - g.player.rect.h))
    (hhit : g.player.rect.y + (v + 1) + g.player.rect.h ≥ groundY) :
    (Wrap.frameStep groundY keys g).player.onGround = true ∧
    (Wrap.frameStep groundY keys g).player.velY = 0 ∧
    (Wrap.frameStep groundY keys g).player.rect.y = groundY - g.player.rect.h ∧
    (Wrap.frameStep groundY keys g).player.rect.h = g.player.rect.h := by
  obtain ⟨-, hqy⟩ := wrap_preCollision_airborne keys g.player hair
  rw [hv, wrap_addGravity_exact v hlo hhi, wrap32_of_inRange _ hy] at hqy
  obtain ⟨hh, hif⟩ := wrap_frameStep_vertical_of_pre groundY keys g
  rw [hqy, wrap32_of_inRange _ hsum, if_pos (by omega), wrap32_of_inRange _ hdiff] at hif
  exact ⟨hif.1, hif.2.1, hif.2.2, hh⟩

theorem tri_nonneg (k : Nat) : 0 ≤ (k : Int) * ((k : Int) + 1) / 2 :=
  Int.ediv_nonneg (by positivity) (by norm_num)

theorem tri_mono (a b : Nat) (h : a ≤ b) :
    (a : Int) * ((a : Int) + 1) / 2 ≤ (b : Int) * ((b : Int) + 1) / 2 := by
  induction b, h using Nat.le_induction with
  | base => exact le_refl _
  | succ m _ ih =>
    have ht := tri_succ (m : Int)
    push_cast
    omega

/-- C9 fails where the fall leaves the range of `int`: with the ground line at
`2147483647` and the spawned player lifted to `d = 2` above it, `K = 2`, and in
frame 2 the sum `rect.y + rect.h` is `2147483648`; the player is not stopped. -/
theorem free_fall_counterexample :
    (airborne 2147483533).player.onGround = false ∧
    (airborne 2147483533).player.velY = 0 ∧
    2147483647 - ((airborne 2147483533).player.rect.y + (airborne 2147483533).player.rect.h)
      = 2 ∧
    (Wrap.runFrames 2147483647 (fun _ => ⟨false, false, false⟩) 2
      (airborne 2147483533)).player.velY = 2 ∧
    (Wrap.runFrames 2147483647 (fun _ => ⟨false, false, false⟩) 2
      (airborne 2147483533)).player.rect.y = 2147483536 ∧
    (Wrap.runFrames 2147483647 (fun _ => ⟨false, false, false⟩) 2
      (airborne 2147483533)).player.onGround = false := by
  decide

/-- C9, amended: an airborne player at rest, `d > 0` above the ground line,
falls with `velY = k` and `rect.y = y₀ + k (k + 1) / 2` after `k` frames for
`1 ≤ k < K`, and lands (`velY = 0`, bottom edge on the line, `onGround = true`)
after exactly `K` frames, `K` the least `k ≥ 1` with `k (k + 1) / 2 ≥ d`,
whatever the keys, provided `rect.y` and `rect.y + rect.h` stay in the range of
`int` up to the floor check of frame `K` (`y₀`, `y₀ + K (K + 1) / 2`, the same
two plus `rect.h`) and so does `groundY - rect.h`. -/
theorem free_fall_scenario (groundY : Int) (inputs : Nat → Keys) (g : Game) (K : Nat)
    (hair : g.player.onGround = false) (hv : g.player.velY = 0)
    (hd : 0 < groundY - (g.player.rect.y + g.player.rect.h))
    (hK1 : 1 ≤ K)
    (hK : groundY - (g.player.rect.y + g.player.rect.h) ≤ (K : Int) * ((K : Int) + 1) / 2)
    (hmin : ∀ j : Nat, 1 ≤ j →
      groundY - (g.player.rect.y + g.player.rect.h) ≤ (j : Int) * ((j : Int) + 1) / 2 → K ≤ j)
    (hy0 : InIntRange g.player.rect.y)
    (hyK : InIntRange (g.player.rect.y + (K : Int) * ((K : Int) + 1) / 2))
    (hb0 : InIntRange (g.player.rect.y + g.player.rect.h))
    (hbK : InIntRange (g.player.rect.y + (K : Int) * ((K : Int) + 1) / 2 + g.player.rect.h))
    (hdiff : InIntRange (groundY - g.player.rect.h)) :
    (∀ k : Nat, 1 ≤ k → k < K →
      (Wrap.runFrames groundY inputs k g).player.velY = (k : Int) ∧
      (Wrap.runFrames groundY inputs k g).player.rect.y
        = g.player.rect.y + (k : Int) * ((k : Int) + 1) / 2 ∧
      (Wrap.runFrames groundY inputs k g).player.onGround = false) ∧
    (Wrap.runFrames groundY inputs K g).player.velY = 0 ∧
    (Wrap.runFrames groundY inputs K g).player.rect.y
      + (Wrap.runFrames groundY inputs K g).player.rect.h = groundY ∧
    (Wrap.runFrames groundY inputs K g).player.onGround = true := by
  simp only [InIntRange] at hy0 hyK hb0 hbK
  -- before frame `K` the triangular number stays below the distance, so `k` is small
  have hbelow : ∀ k : Nat, 1 ≤ k → k < K →
      (k : Int) * ((k : Int) + 1) / 2 < groundY - (g.player.rect.y + g.player.rect.h) := by
    intro k hk1 hkK
    by_contra hnot
    have := hmin k hk1 (by omega)
    omega
  have hsmall : ∀ k : Nat, k < K → (k : Int) < 131072 := by
    intro k hkK
    rcases Nat.eq_zero_or_pos k with h0 | hpos
    · subst h0; norm_num
    · have h1 := hbelow k hpos hkK
      exact tri_index_small k (by omega) (by omega)
  have inv : ∀ k : Nat, k < K →
      (Wrap.runFrames groundY inputs k g).player.onGround = false ∧
      (Wrap.runFrames groundY inputs k g).player.velY = (k : Int) ∧
      (Wrap.runFrames groundY inputs k g).player.rect.y
        = g.player.rect.y + (k : Int) * ((k : Int) + 1) / 2 ∧
      (Wrap.runFrames groundY inputs k g).player.rect.h = g.player.rect.h := by
    intro k
    induction k with
    | zero =>
      intro _
      simp [Wrap.runFrames, hair, hv]
    | succ m ih =>
      intro hlt
      obtain ⟨i1, i2, i3, i4⟩ := ih (by omega)
      have hm := hsmall m (by omega)
      have hb2 := hbelow (m + 1) (by omega) hlt
      have ht := tri_succ (m : Int)
      have hn := tri_nonneg m
      have hmono := tri_mono (m + 1) K (by omega)
      push_cast at hb2 hmono ⊢
      obtain ⟨f1, f2, f3, f4⟩ := wrap_frameStep_fall groundY (inputs m)
        (Wrap.runFrames groundY inputs m g) (m : Int) i1 i2 (by omega) (by omega)
        (by rw [i3]; exact ⟨by omega, by omega⟩)
        (by rw [i3, i4]; exact ⟨by omega, by omega⟩)
        (by rw [i3, i4]; omega)
      simp only [Wrap.runFrames]
      refine ⟨f1, f2, ?_, ?_⟩
      · rw [f3, i3]; omega
      · rw [f4, i4]
  refine ⟨fun k hk1 hkK => ⟨(inv k hkK).2.1, (inv k hkK).2.2.1, (inv k hkK).1⟩, ?_⟩
  obtain ⟨m, rfl⟩ : ∃ m, K = m + 1 := ⟨K - 1, by omega⟩
  obtain ⟨i1, i2, i3, i4⟩ := inv m (by omega)
  have hm := hsmall m (by omega)
  have ht := tri_succ (m : Int)
  have hn := tri_nonneg m
  push_cast at hK hyK hbK
  obtain ⟨f1, f2, f3, f4⟩ := wrap_frameStep_land groundY (inputs m)
    (Wrap.runFrames groundY inputs m g) (m : Int) i1 i2 (by omega) (by omega)
    (by rw [i3]; exact ⟨by omega, by omega⟩)
    (by rw [i3, i4]; exact ⟨by omega, by omega⟩)
    (by rw [i4]; exact hdiff)
    (by rw [i3, i4]; omega)
  simp only [Wrap.runFrames]
  refine ⟨f2, ?_, f1⟩
  rw [f3, f4]
  omega

/-- C9, amended, for the spawned player lifted by 3: it falls 1, would fall 2
more and lands after `K = 2` frames. -/
theorem free_fall_scenario_witness :
    (Wrap.runFrames 840 (fun _ => ⟨true, false, true⟩) 2 (airborne 725)).player.velY = 0 ∧
    (Wrap.runFrames 840 (fun _ => ⟨true, false, true⟩) 2 (airborne 725)).player.rect.y
      + (Wrap.runFrames 840 (fun _ => ⟨true, false, true⟩) 2 (airborne 725)).player.rect.h
      = 840 ∧
    (Wrap.runFrames 840 (fun _ => ⟨true, false, true⟩) 2 (airborne 725)).player.onGround
      = true :=
  (free_fall_scenario 840 (fun _ => ⟨true, false, true⟩) (airborne 725) 2
    (by decide) (by decide) (by decide) (by decide) (by decide)
    (by
      intro j hj1 hj
      by_contra hlt
      have hj2 : j = 1 := by omega
      subst hj2
      revert hj
      decide)
    (by decide) (by decide) (by decide) (by decide) (by decide)).2

/-- State of the jump after `k + 1` frames, `k ≤ 27`. -/
theorem wrap_jump_arc_airborne (groundY : Int) (inputs : Nat → Keys) (g : Game)
    (hg : g.player.onGround = true) (hy : g.player.rect.y + g.player.rect.h = groundY)
    (hj : (inputs 0).w = true)
    (hr0 : InIntRange g.player.rect.y) (hrTop : InIntRange (g.player.rect.y - 105))
    (hb0 : InIntRange (g.player.rect.y + g.player.rect.h))
    (hbTop : InIntRange (g.player.rect.y - 105 + g.player.rect.h))
    (k : Nat) (hk : k ≤ 27) :
    (Wrap.runFrames groundY inputs (k + 1) g).player.onGround = false ∧
    (Wrap.runFrames groundY inputs (k + 1) g).player.velY = (k : Int) - 14 ∧
    (Wrap.runFrames groundY inputs (k + 1) g).player.rect.y
      = g.player.rect.y - (15 * ((k : Int) + 1) - ((k : Int) + 1) * ((k : Int) + 1 + 1) / 2) ∧
    (Wrap.runFrames groundY inputs (k + 1) g).player.rect.h = g.player.rect.h := by
  simp only [InIntRange] at hr0 hrTop hb0 hbTop
  induction k with
  | zero =>
    obtain ⟨hqv, hqy⟩ := wrap_preCollision_jump (inputs 0) g.player hg hj
    rw [wrap32_of_inRange _ ⟨by omega, by omega⟩] at hqy
    obtain ⟨hh, hif⟩ := wrap_frameStep_vertical_of_pre groundY (inputs 0) g
    rw [hqy, wrap32_of_inRange _ ⟨by omega, by omega⟩, if_neg (by omega), hqv] at hif
    simp only [Wrap.runFrames]
    refine ⟨hif.1, by rw [hif.2.1]; norm_num, ?_, hh⟩
    rw [hif.2.2]
    have e : (15 * (((0 : Nat) : Int) + 1)
        - (((0 : Nat) : Int) + 1) * (((0 : Nat) : Int) + 1 + 1) / 2) = 14 := by decide
    rw [e]
    omega
  | succ m ih =>
    obtain ⟨i1, i2, i3, i4⟩ := ih (by omega)
    have ht := tri_succ ((m : Int) + 1)
    have hpos := jumpHeight_pos (m + 1 + 1) (by omega) (by omega)
    have hle := (jumpHeight_le (m + 1 + 1) (by omega)).1
    push_cast at hpos hle ⊢
    obtain ⟨f1, f2, f3, f4⟩ := wrap_frameStep_fall groundY (inputs (m + 1))
      (Wrap.runFrames groundY inputs (m + 1) g) ((m : Int) - 14) i1 i2 (by omega) (by omega)
      (by rw [i3]; exact ⟨by omega, by omega⟩)
      (by rw [i3, i4]; exact ⟨by omega, by omega⟩)
      (by rw [i3, i4]; omega)
    rw [Wrap.runFrames]
    refine ⟨f1, by rw [f2]; omega, ?_, by rw [f4, i4]⟩
    rw [f3, i3]; omega

set_option maxRecDepth 8192 in
/-- C10 fails where the arc leaves the range of `int`: for the spawned player
standing at `y₀ = -2147483598` on a ground line at `y₀ + 112`, the claim gives
`rect.y = y₀ - 60 = -2147483658` after 5 frames; the program stores
`2147483638`. -/
theorem jump_arc_counterexample :
    (standing 536 (-2147483598) 0).player.onGround = true ∧
    (standing 536 (-2147483598) 0).player.velY = 0 ∧
    (standing 536 (-2147483598) 0).player.rect.y + (standing 536 (-2147483598) 0).player.rect.h
      = -2147483486 ∧
    (Wrap.runFrames (-2147483486) (fun _ => ⟨false, false, true⟩) 5
      (standing 536 (-2147483598) 0)).player.rect.y = 2147483638 ∧
    (standing 536 (-2147483598) 0).player.rect.y - (15 * 5 - 5 * (5 + 1) / 2) = -2147483658 ∧
    ¬ ((Wrap.runFrames (-2147483486) (fun _ => ⟨false, false, true⟩) 5
        (standing 536 (-2147483598) 0)).player.rect.y
          = (standing 536 (-2147483598) 0).player.rect.y - (15 * 5 - 5 * (5 + 1) / 2)) := by
  decide

/-- C10, amended: a player on the ground (`onGround = true`, bottom edge on the
line; `velY` is overwritten by the jump, so `velY = 0` is not needed) with
`y₀`, `y₀ - 105`, `y₀ + rect.h` and `y₀ - 105 + rect.h` in the range of `int`,
whose first frame has the jump key held, is airborne with `velY = k - 15` and
`rect.y = y₀ - (15 k - k (k + 1) / 2)` after `k` frames, `1 ≤ k ≤ 28`; it never
gets above `y₀ - 105`, which it reaches exactly after 14 and after 15 frames;
after 29 frames it is back at `y₀` with `velY = 0` and `onGround = true`; and
`rect.y` is the same for every other input sequence whose first frame has the
jump key held. -/
theorem jump_arc_scenario (groundY : Int) (inputs : Nat → Keys) (g : Game)
    (hg : g.player.onGround = true)
    (hy : g.player.rect.y + g.player.rect.h = groundY) (hj : (inputs 0).w = true)
    (hr0 : InIntRange g.player.rect.y) (hrTop : InIntRange (g.player.rect.y - 105))
    (hb0 : InIntRange (g.player.rect.y + g.player.rect.h))
    (hbTop : InIntRange (g.player.rect.y - 105 + g.player.rect.h)) :
    (∀ k : Nat, 1 ≤ k → k ≤ 28 →
      (Wrap.runFrames groundY inputs k g).player.onGround = false ∧
      (Wrap.runFrames groundY inputs k g).player.velY = (k : Int) - 15 ∧
      (Wrap.runFrames groundY inputs k g).player.rect.y
        = g.player.rect.y - (15 * (k : Int) - (k : Int) * ((k : Int) + 1) / 2)) ∧
    (∀ k : Nat, k ≤ 29 →
      g.player.rect.y - 105 ≤ (Wrap.runFrames groundY inputs k g).player.rect.y ∧
      ((Wrap.runFrames groundY inputs k g).player.rect.y = g.player.rect.y - 105 ↔
        k = 14 ∨ k = 15)) ∧
    ((Wrap.runFrames groundY inputs 29 g).player.rect.y = g.player.rect.y ∧
      (Wrap.runFrames groundY inputs 29 g).player.velY = 0 ∧
      (Wrap.runFrames groundY inputs 29 g).player.onGround = true) ∧
    (∀ other : Nat → Keys, (other 0).w = true → ∀ k : Nat, k ≤ 29 →
      (Wrap.runFrames groundY other k g).player.rect.y
        = (Wrap.runFrames groundY inputs k g).player.rect.y) := by
  -- frames 1 to 28, for any input sequence that starts with a jump
  have arc : ∀ keys : Nat → Keys, (keys 0).w = true → ∀ k : Nat, 1 ≤ k → k ≤ 28 →
      (Wrap.runFrames groundY keys k g).player.onGround = false ∧
      (Wrap.runFrames groundY keys k g).player.velY = (k : Int) - 15 ∧
      (Wrap.runFrames groundY keys k g).player.rect.y
        = g.player.rect.y - (15 * (k : Int) - (k : Int) * ((k : Int) + 1) / 2) ∧
      (Wrap.runFrames groundY keys k g).player.rect.h = g.player.rect.h := by
    intro keys hkeys k hk1 hk28
    obtain ⟨m, rfl⟩ : ∃ m, k = m + 1 := ⟨k - 1, by omega⟩
    obtain ⟨a1, a2, a3, a4⟩ :=
      wrap_jump_arc_airborne groundY keys g hg hy hkeys hr0 hrTop hb0 hbTop m (by omega)
    push_cast
    exact ⟨a1, by rw [a2]; omega, a3, a4⟩
  -- frame 29
  have landed : ∀ keys : Nat → Keys, (keys 0).w = true →
      (Wrap.runFrames groundY keys 29 g).player.rect.y = g.player.rect.y ∧
      (Wrap.runFrames groundY keys 29 g).player.velY = 0 ∧
      (Wrap.runFrames groundY keys 29 g).player.onGround = true := by
    intro keys hkeys
    obtain ⟨a1, a2, a3, a4⟩ := arc keys hkeys 28 (by norm_num) (by norm_num)
    have e : (15 * ((28 : Nat) : Int) - ((28 : Nat) : Int) * (((28 : Nat) : Int) + 1) / 2)
        = 14 := by decide
    rw [e] at a3
    simp only [InIntRange] at hr0 hrTop hb0 hbTop
    obtain ⟨f1, f2, f3, f4⟩ := wrap_frameStep_land groundY (keys 28)
      (Wrap.runFrames groundY keys 28 g) 13 a1 (by rw [a2]; norm_num) (by norm_num)
      (by norm_num)
      (by rw [a3]; exact ⟨by omega, by omega⟩)
      (by rw [a3, a4]; exact ⟨by omega, by omega⟩)
      (by rw [a4]; exact ⟨by omega, by omega⟩)
      (by rw [a3, a4]; omega)
    have hrun : Wrap.runFrames groundY keys 29 g
        = Wrap.frameStep groundY (keys 28) (Wrap.runFrames groundY keys 28 g) := rfl
    rw [hrun]
    exact ⟨by rw [f3, a4]; omega, f2, f1⟩
  -- `rect.y` at every frame up to 29
  have height : ∀ keys : Nat → Keys, (keys 0).w = true → ∀ k : Nat, k ≤ 29 →
      (Wrap.runFrames groundY keys k g).player.rect.y =
        if k = 0 ∨ k = 29 then g.player.rect.y
        else g.player.rect.y - (15 * (k : Int) - (k : Int) * ((k : Int) + 1) / 2) := by
    intro keys hkeys k hk
    by_cases h0 : k = 0
    · subst h0; simp [Wrap.runFrames]
    · by_cases h29 : k = 29
      · subst h29; simp [(landed keys hkeys).1]
      · rw [if_neg (by omega)]
        exact (arc keys hkeys k (by omega) (by omega)).2.2.1
  refine ⟨fun k hk1 hk28 => ⟨(arc inputs hj k hk1 hk28).1, (arc inputs hj k hk1 hk28).2.1,
    (arc inputs hj k hk1 hk28).2.2.1⟩, ?_, landed inputs hj, ?_⟩
  · intro k hk
    rw [height inputs hj k hk]
    by_cases hends : k = 0 ∨ k = 29
    · rw [if_pos hends]
      constructor
      · omega
      · constructor
        · intro h; omega
        · intro h; omega
    · rw [if_neg hends]
      obtain ⟨hle, heq⟩ := jumpHeight_le k (by omega)
      refine ⟨by omega, fun h => heq (by omega), ?_⟩
      rintro (h | h) <;> subst h <;> norm_num
  · intro other hother k hk
    rw [height inputs hj k hk, height other hother k hk]

/-- C10, amended, for the player resting where the program spawns it, with the
jump key held in every frame: the top of the arc is `y = 623`, after 14 frames. -/
theorem jump_arc_scenario_witness :
    (standing 536 728 0).player.onGround = true ∧
    (standing 536 728 0).player.rect.y + (standing 536 728 0).player.rect.h = 840 ∧
    InIntRange ((standing 536 728 0).player.rect.y - 105) ∧
    (Wrap.runFrames 840 (fun _ => ⟨false, true, true⟩) 14 (standing 536 728 0)).player.rect.y
      = 623 :=
  ⟨by decide, by decide, by decide,
    ((jump_arc_scenario 840 (fun _ => ⟨false, true, true⟩) (standing 536 728 0)
      (by decide) (by decide) rfl (by decide) (by decide) (by decide) (by decide)).2.1 14
        (by decide)).2.2 (Or.inl rfl)⟩

end Hell
